import Mathlib

/-!
Verification of the `delegate-attr` transformation engine (src/lib.rs).

The development shallowly embeds the proc-macro's rewrite logic:
token streams (`proc_macro2::TokenTree`) become an inductive tree,
`replace_self`, `delegate_method`, `delegate_impl_block` and
`delegate_input` are translated function-for-function from the source,
and the host-language parsing primitives (`syn::parse2`) — which the
program treats as given — are modelled by oracle parameters or by small
recognizers over the token shapes the program inspects.
-/

namespace DelegateAttr

/-- `proc_macro2::Delimiter`. -/
inductive Delim where
  | paren
  | brace
  | bracket
  | noDelim
  deriving DecidableEq, Repr

/-- `proc_macro2::TokenTree`: identifiers, punctuation, literals and
delimited groups (a group holds a nested token stream). -/
inductive TokenTree where
  | ident (name : String)
  | punct (ch : Char)
  | lit (text : String)
  | group (delim : Delim) (stream : List TokenTree)

/-- `replace_self` (src/lib.rs:317-329): map over the token stream,
replacing each `self` identifier token by the extracted self token
stream, rebuilding groups (same delimiter) after recursing into their
streams, and leaving every other token unchanged.  Collecting the mapped
streams concatenates them. -/
def replace_self (expr : List TokenTree) (selfTok : List TokenTree) : List TokenTree :=
  match expr with
  | [] => []
  | TokenTree.ident n :: rest =>
      (if n = "self" then selfTok else [TokenTree.ident n]) ++ replace_self rest selfTok
  | TokenTree.group d s :: rest =>
      TokenTree.group d (replace_self s selfTok) :: replace_self rest selfTok
  | t :: rest => t :: replace_self rest selfTok

mutual

/-- Number of occurrences of the identifier token `name` in a token tree,
counting inside nested groups. -/
def countIdentTree (name : String) : TokenTree → Nat
  | TokenTree.ident n => if n = name then 1 else 0
  | TokenTree.group _ s => countIdentStream name s
  | _ => 0

/-- Number of occurrences of the identifier token `name` in a token stream. -/
def countIdentStream (name : String) : List TokenTree → Nat
  | [] => 0
  | t :: ts => countIdentTree name t + countIdentStream name ts

end

theorem countIdentStream_append (name : String) (a b : List TokenTree) :
    countIdentStream name (a ++ b) = countIdentStream name a + countIdentStream name b := by
  induction a with
  | nil => simp [countIdentStream]
  | cons t ts ih => simp [countIdentStream, ih]; ring

/-- Every `self` identifier token in the input is replaced by a copy of the
substituted stream: occurrence counting. -/
theorem countIdentStream_replace_self_self (e st : List TokenTree) :
    countIdentStream "self" (replace_self e st) =
      countIdentStream "self" e * countIdentStream "self" st := by
  induction e, st using replace_self.induct with
  | case1 st => simp [replace_self, countIdentStream]
  | case2 st n rest ih =>
      by_cases h : n = "self"
      · simp [replace_self, h, countIdentStream_append, countIdentStream, countIdentTree, ih]
        ring
      · simp [replace_self, h, countIdentStream_append, countIdentStream, countIdentTree, ih]
  | case3 st d s rest ih1 ih2 =>
      simp [replace_self, countIdentStream, countIdentTree, ih1, ih2]
      ring
  | case4 st t rest h1 h2 ih =>
      cases t with
      | ident n => exact absurd rfl (h1 n)
      | group d s => exact absurd rfl (h2 d s)
      | punct c => simp [replace_self, countIdentStream, countIdentTree, ih]
      | lit s => simp [replace_self, countIdentStream, countIdentTree, ih]

/-- An identifier other than `self` is never rewritten: its occurrences in the
output are its original ones plus those contributed by the copies of the
substituted stream. -/
theorem countIdentStream_replace_self_other (s : String) (hs : s ≠ "self")
    (e st : List TokenTree) :
    countIdentStream s (replace_self e st) =
      countIdentStream s e + countIdentStream "self" e * countIdentStream s st := by
  induction e, st using replace_self.induct with
  | case1 st => simp [replace_self, countIdentStream]
  | case2 st n rest ih =>
      by_cases h : n = "self"
      · simp [replace_self, h, countIdentStream_append, countIdentStream, countIdentTree,
          ih, Ne.symm hs]
        ring
      · simp [replace_self, h, countIdentStream_append, countIdentStream, countIdentTree, ih]
        ring
  | case3 st d g rest ih1 ih2 =>
      simp [replace_self, countIdentStream, countIdentTree, ih1, ih2]
      ring
  | case4 st t rest h1 h2 ih =>
      cases t with
      | ident n => exact absurd rfl (h1 n)
      | group d g => exact absurd rfl (h2 d g)
      | punct c => simp [replace_self, countIdentStream, countIdentTree, ih]
      | lit l => simp [replace_self, countIdentStream, countIdentTree, ih]

/-- A receiver stream containing no `self` identifier token passes through
`replace_self` unchanged. -/
theorem replace_self_no_self (e st : List TokenTree)
    (h : countIdentStream "self" e = 0) : replace_self e st = e := by
  induction e, st using replace_self.induct with
  | case1 st => simp [replace_self]
  | case2 st n rest ih =>
      simp [countIdentStream, countIdentTree] at h
      rcases h with ⟨h1, h2⟩
      simp [replace_self, h1, ih h2]
  | case3 st d g rest ih1 ih2 =>
      simp [countIdentStream, countIdentTree] at h
      rcases h with ⟨h1, h2⟩
      simp [replace_self, ih1 h1, ih2 h2]
  | case4 st t rest h1 h2 ih =>
      cases t with
      | ident n => exact absurd rfl (h1 n)
      | group d g => exact absurd rfl (h2 d g)
      | punct c =>
          simp [countIdentStream, countIdentTree] at h
          simp [replace_self, ih h]
      | lit l =>
          simp [countIdentStream, countIdentTree] at h
          simp [replace_self, ih h]

/-- `syn::Path` of an attribute, as inspected by `Path::is_ident`:
an optional leading path separator and the segment names. -/
structure AttrPath where
  leadingColon : Bool
  segments : List String

/-- `syn::Path::is_ident`: a single segment named `name`, no leading
separator. -/
def AttrPath.isIdent (p : AttrPath) (name : String) : Bool :=
  !p.leadingColon && p.segments = [name]

/-- A `syn::Attribute` as used by `delegate_method`: its path, its raw
argument tokens (`attr.tokens`), and an abstract source position
identifier used to model spans of diagnostics. -/
structure Attr where
  spanId : Nat
  path : AttrPath
  tokens : List TokenTree

/-- Outcome of `syn::parse2::<ExprParen>(attr.tokens)` followed by the
inspection the `call` branch performs on the parsed expression.  This
models the host parser (treated by the program as a given primitive) on
the three outcome classes the code distinguishes. -/
inductive CallArg where
  | parenIdent (name : String)
  | parenNonIdent
  | malformed

/-- Classify `attr.tokens` for the `call` directive the way
`delegate_method` does through `syn`: a single parenthesized group whose
content is a lone identifier yields that identifier; a parenthesized
non-empty expression that is not a lone identifier (and not a tuple,
which `ExprParen` refuses) is a well-parsed but invalid argument; any
other token shape fails to parse as a parenthesized expression. -/
def classifyCallArg : List TokenTree → CallArg
  | [TokenTree.group Delim.paren inner] =>
      match inner with
      | [] => CallArg.malformed
      | [TokenTree.ident n] => CallArg.parenIdent n
      | ts =>
          if ts.any (fun t => match t with | TokenTree.punct ch => ch = ',' | _ => false)
          then CallArg.malformed
          else CallArg.parenNonIdent
  | _ => CallArg.malformed

/-- Abstract source positions at which `delegate_method` and
`delegate_input` attach diagnostics. -/
inductive Span where
  | attrTokens (spanId : Nat)
  | attrWhole (spanId : Nat)
  | callInner (spanId : Nat)
  | sigParen
  | patWhole (paramIdx : Nat)
  | patPat (paramIdx : Nat)
  | argWhole (paramIdx : Nat)
  | token (t : TokenTree)

/-- A diagnostic as pushed by `push_error`: a span and a message. -/
abbrev Diag := Span × String

/-- `syn::Pat` restricted to the shapes `delegate_method` distinguishes:
an identifier pattern (`Pat::Ident` with optional `ref` and `mut`
modifiers and no subpattern), or any other pattern (kept as raw
tokens). -/
inductive Pat where
  | ident (byRef : Bool) (isMut : Bool) (name : String)
  | other (tokens : List TokenTree)

/-- `ToTokens` for a `Pat::Ident`: `ref`, then `mut`, then the bound
name. -/
def Pat.tokens : Pat → List TokenTree
  | Pat.ident byRef isMut name =>
      (if byRef then [TokenTree.ident "ref"] else []) ++
      (if isMut then [TokenTree.ident "mut"] else []) ++
      [TokenTree.ident name]
  | Pat.other ts => ts

/-- `syn::FnArg`: an implicit receiver (`self`, `&self`, `&mut self`;
`self_token` is always the `self` keyword) or a typed pattern
`pat : ty`. -/
inductive FnArg where
  | receiver (byRefForm : Bool) (isMut : Bool)
  | typed (pat : Pat) (ty : List TokenTree)

/-- `syn::ReturnType`. -/
inductive ReturnType where
  | default
  | type (ty : List TokenTree)

/-- The parts of `syn::Signature` that `delegate_method` reads; the
remaining parts are re-emitted verbatim inside the quoted output. -/
structure Signature where
  ident : String
  inputs : List FnArg
  output : ReturnType

/-- `syn::ImplItemMethod`: attributes, visibility (verbatim tokens),
defaultness, signature, and the (discarded) block. -/
structure ImplItemMethod where
  attrs : List Attr
  vis : List TokenTree
  defaultness : Bool
  sig : Signature
  block : List TokenTree

/-- State threaded through the `attrs.retain` closure of
`delegate_method` (src/lib.rs:208-251): the three directive flags, the
retained attributes, and the accumulated diagnostics. -/
structure AttrScanState where
  hasInline : Bool
  hasInto : Bool
  callName : Option String
  kept : List Attr
  errors : List Diag

/-- One step of the `attrs.retain` closure (src/lib.rs:212-251):
`inline` sets the flag and is retained; `into` checks for arguments and
duplication, sets the flag and is removed; `call` parses its argument,
checks duplication and is removed; everything else is retained. -/
def processAttr (s : AttrScanState) (attr : Attr) : AttrScanState :=
  if attr.path.isIdent "inline" then
    { s with hasInline := true, kept := s.kept ++ [attr] }
  else if attr.path.isIdent "into" then
    let s :=
      if !attr.tokens.isEmpty then
        { s with errors := s.errors ++ [(Span.attrTokens attr.spanId, "unexpected argument")] }
      else s
    let s :=
      if s.hasInto then
        { s with errors :=
            s.errors ++ [(Span.attrWhole attr.spanId, "duplicate #[into] attribute")] }
      else s
    { s with hasInto := true }
  else if attr.path.isIdent "call" then
    match classifyCallArg attr.tokens with
    | CallArg.parenIdent n =>
        let s :=
          if s.callName.isSome then
            { s with errors :=
                s.errors ++ [(Span.attrWhole attr.spanId, "duplicate #[call] attribute")] }
          else s
        { s with callName := some n }
    | CallArg.parenNonIdent =>
        { s with errors :=
            s.errors ++
              [(Span.callInner attr.spanId, "invalid argument, expected an identifier")] }
    | CallArg.malformed =>
        { s with errors :=
            s.errors ++ [(Span.attrTokens attr.spanId, "invalid argument")] }
  else
    { s with kept := s.kept ++ [attr] }

/-- The whole attribute scan: fold the retain closure over the attribute
list from the initial state. -/
def attrScan (attrs : List Attr) : AttrScanState :=
  attrs.foldl processAttr
    { hasInline := false, hasInto := false, callName := none, kept := [], errors := [] }

/-- Extraction of the self token from the first input
(src/lib.rs:258-273): an implicit receiver yields its `self` keyword; a
typed pattern binding the literal name `self` yields that identifier;
otherwise `expected self` is reported (at the parameter for a non-self
first parameter, at the signature parentheses when there is none). -/
def extractSelf : List FnArg → List TokenTree × List Diag
  | [] => ([], [(Span.sigParen, "expected self")])
  | FnArg.receiver _ _ :: _ => ([TokenTree.ident "self"], [])
  | FnArg.typed pat _ :: _ =>
      match pat with
      | Pat.ident _ _ n =>
          if n = "self" then ([TokenTree.ident "self"], [])
          else ([], [(Span.patWhole 0, "expected self")])
      | Pat.other _ => ([], [(Span.patWhole 0, "expected self")])

/-- Projection of the remaining (non-self) parameters into call
arguments (src/lib.rs:274-289): an identifier pattern contributes its
tokens; any other pattern reports `expect an identifier`; a further
receiver reports `unexpected argument`.  `idx` is the position of the
parameter in the original input list (for spans). -/
def projectArgs : Nat → List FnArg → List (List TokenTree) × List Diag
  | _, [] => ([], [])
  | idx, arg :: rest =>
      let r := projectArgs (idx + 1) rest
      match arg with
      | FnArg.typed pat _ =>
          match pat with
          | Pat.ident byRef isMut n => ((Pat.ident byRef isMut n).tokens :: r.1, r.2)
          | Pat.other _ => (r.1, (Span.patPat idx, "expect an identifier") :: r.2)
      | FnArg.receiver _ _ => (r.1, (Span.argWhole idx, "unexpected argument") :: r.2)

/-- All diagnostics `delegate_method` accumulates, in `push_error` order:
attribute scan first, then self extraction, then argument projection. -/
def methodErrors (m : ImplItemMethod) : List Diag :=
  (attrScan m.attrs).errors ++ (extractSelf m.sig.inputs).2 ++
    (projectArgs 1 (m.sig.inputs.drop 1)).2

/-- The generated call `receiver.name(args)`. -/
structure Call where
  recv : List TokenTree
  name : String
  args : List (List TokenTree)

/-- The three body shapes of src/lib.rs:303-309: a statement-terminated
call (no declared return type), an `Into`-wrapped call, or the bare
call. -/
inductive Body where
  | stmt (c : Call)
  | intoWrap (ty : List TokenTree) (c : Call)
  | bare (c : Call)

/-- Result of `delegate_method`: either the accumulated diagnostics
alone (src/lib.rs:291-292), or the rewritten method — retained
attributes, whether the `#[inline(always)]` marker is emitted,
visibility, defaultness, the unchanged signature, and the synthesized
body. -/
inductive MethodOutput where
  | errors (diags : List Diag)
  | method (attrs : List Attr) (forceInline : Bool) (vis : List TokenTree)
      (defaultness : Bool) (sig : Signature) (body : Body)

/-- `delegate_method` (src/lib.rs:196-315). -/
def delegate_method (m : ImplItemMethod) (receiver : List TokenTree) : MethodOutput :=
  let s := attrScan m.attrs
  let selfTok := (extractSelf m.sig.inputs).1
  let args := (projectArgs 1 (m.sig.inputs.drop 1)).1
  let errors := methodErrors m
  if errors.isEmpty then
    let name := s.callName.getD m.sig.ident
    let recv := replace_self receiver selfTok
    let call : Call := { recv := recv, name := name, args := args }
    let body :=
      match m.sig.output with
      | ReturnType.default => Body.stmt call
      | ReturnType.type ty => if s.hasInto then Body.intoWrap ty call else Body.bare call
    MethodOutput.method s.kept (!s.hasInline) m.vis m.defaultness m.sig body
  else
    MethodOutput.errors errors

/-- A member of an `impl` block: a method, or any other item (kept as
verbatim tokens, matching `item.into_token_stream()`). -/
inductive ImplItem where
  | method (m : ImplItemMethod)
  | otherItem (tokens : List TokenTree)

/-- The parts of `syn::ItemImpl` destructured by `delegate_impl_block`
(src/lib.rs:167-194); the where-clause is taken out of the generics and
re-emitted after the self type. -/
structure ItemImpl where
  attrs : List Attr
  defaultness : Bool
  unsafety : Bool
  generics : List TokenTree
  whereClause : List TokenTree
  traitPart : Option (List TokenTree)
  selfTy : List TokenTree
  items : List ImplItem

/-- One emitted member of the rewritten block: a rewritten method or a
passed-through item. -/
inductive ImplItemOutput where
  | rewritten (out : MethodOutput)
  | passthrough (tokens : List TokenTree)

/-- The rewritten block: header parts re-emitted verbatim, members
processed one by one. -/
structure ImplBlockOutput where
  attrs : List Attr
  defaultness : Bool
  unsafety : Bool
  generics : List TokenTree
  traitPart : Option (List TokenTree)
  selfTy : List TokenTree
  whereClause : List TokenTree
  items : List ImplItemOutput

/-- Processing of one block member (src/lib.rs:181-187): methods go
through `delegate_method`, everything else is re-emitted verbatim. -/
def processImplItem (receiver : List TokenTree) : ImplItem → ImplItemOutput
  | ImplItem.method m => ImplItemOutput.rewritten (delegate_method m receiver)
  | ImplItem.otherItem ts => ImplItemOutput.passthrough ts

/-- `delegate_impl_block` (src/lib.rs:167-194): the header is preserved
and every member is processed independently. -/
def delegate_impl_block (input : ItemImpl) (receiver : List TokenTree) : ImplBlockOutput :=
  { attrs := input.attrs
    defaultness := input.defaultness
    unsafety := input.unsafety
    generics := input.generics
    traitPart := input.traitPart
    selfTy := input.selfTy
    whereClause := input.whereClause
    items := input.items.map (processImplItem receiver) }

mutual

/-- The outer loop of the fallback scan in `delegate_input`
(src/lib.rs:139-154): stop at the first token that does not start an
attribute; a `#` punct hands over to the attribute-skipping inner
loop. -/
def firstNonAttrToken : List TokenTree → Option TokenTree
  | [] => none
  | TokenTree.punct '#' :: rest => skipAttrBody rest
  | t :: _ => some t

/-- The inner loop of the fallback scan (src/lib.rs:146-153): inside an
attribute prefix, puncts are skipped, a group ends the attribute and
resumes the outer loop, and any other token is the answer. -/
def skipAttrBody : List TokenTree → Option TokenTree
  | [] => none
  | TokenTree.punct _ :: rest => skipAttrBody rest
  | TokenTree.group _ _ :: rest => firstNonAttrToken rest
  | t :: _ => some t

end

/-- The diagnostic message chosen for the first substantive token
(src/lib.rs:156-160). -/
def fallbackMsg : TokenTree → String
  | TokenTree.ident n =>
      if n = "impl" then "invalid impl block for #[delegate]"
      else if n = "fn" then "invalid method for #[delegate]"
      else "expected an impl block or method inside impl block"
  | _ => "expected an impl block or method inside impl block"

/-- Result of `delegate_input`: a rewritten block, a rewritten single
method, a single localized `compile_error!` diagnostic, or the abnormal
termination (`panic`, src/lib.rs:163) on structurally empty input. -/
inductive InputResult where
  | implBlock (out : ImplBlockOutput)
  | singleMethod (out : MethodOutput)
  | diag (d : Diag)
  | fatal (msg : String)

/-- `delegate_input` (src/lib.rs:132-165).  The two speculative `syn`
parses are the host language's given primitives; they are supplied as
oracle arguments `asImpl` and `asMethod`, tried in that order.  When
both fail the raw token stream is scanned for its first substantive
token to pick one diagnostic, and an exhausted stream is a
programming-contract violation. -/
def delegate_input (asImpl : Option ItemImpl) (asMethod : Option ImplItemMethod)
    (raw : List TokenTree) (receiver : List TokenTree) : InputResult :=
  match asImpl with
  | some block => InputResult.implBlock (delegate_impl_block block receiver)
  | none =>
      match asMethod with
      | some m => InputResult.singleMethod (delegate_method m receiver)
      | none =>
          match firstNonAttrToken raw with
          | some t => InputResult.diag (Span.token t, fallbackMsg t)
          | none => InputResult.fatal "unexpected eof"

section AttrScanLemmas

/-- A path can be `is_ident` for at most one name. -/
theorem AttrPath.isIdent_unique {p : AttrPath} {a b : String}
    (ha : p.isIdent a = true) (hb : p.isIdent b = true) : a = b := by
  simp [AttrPath.isIdent] at ha hb
  rcases ha with ⟨-, ha⟩
  rcases hb with ⟨-, hb⟩
  rw [ha] at hb
  simpa using hb

/-- Whether the retain closure keeps an attribute: everything except the
`into` and `call` directives. -/
def keepsAttr (a : Attr) : Bool :=
  !(a.path.isIdent "into" || a.path.isIdent "call")

theorem processAttr_kept (s : AttrScanState) (a : Attr) :
    (processAttr s a).kept = s.kept ++ (if keepsAttr a then [a] else []) := by
  unfold processAttr keepsAttr
  by_cases h1 : a.path.isIdent "inline" = true
  · have h2 : a.path.isIdent "into" = false := by
      by_contra h
      simp at h
      exact absurd (AttrPath.isIdent_unique h1 h) (by decide)
    have h3 : a.path.isIdent "call" = false := by
      by_contra h
      simp at h
      exact absurd (AttrPath.isIdent_unique h1 h) (by decide)
    simp [h1, h2, h3]
  · simp only [Bool.not_eq_true] at h1
    simp only [h1]
    by_cases h2 : a.path.isIdent "into" = true
    · simp [h2]
      split <;> split <;> rfl
    · simp only [Bool.not_eq_true] at h2
      simp only [h2]
      by_cases h3 : a.path.isIdent "call" = true
      · simp [h3]
        cases classifyCallArg a.tokens <;> simp <;> split <;> rfl
      · simp only [Bool.not_eq_true] at h3
        simp [h3]

theorem processAttr_hasInto (s : AttrScanState) (a : Attr) :
    (processAttr s a).hasInto = (s.hasInto || a.path.isIdent "into") := by
  unfold processAttr
  by_cases h1 : a.path.isIdent "inline" = true
  · have h2 : a.path.isIdent "into" = false := by
      by_contra h
      simp at h
      exact absurd (AttrPath.isIdent_unique h1 h) (by decide)
    simp [h1, h2]
  · simp only [Bool.not_eq_true] at h1
    simp only [h1]
    by_cases h2 : a.path.isIdent "into" = true
    · simp [h2]
    · simp only [Bool.not_eq_true] at h2
      simp only [h2]
      by_cases h3 : a.path.isIdent "call" = true
      · simp [h3]
        cases classifyCallArg a.tokens <;> simp <;> split <;> rfl
      · simp only [Bool.not_eq_true] at h3
        simp [h3]

theorem processAttr_hasInline (s : AttrScanState) (a : Attr) :
    (processAttr s a).hasInline = (s.hasInline || a.path.isIdent "inline") := by
  unfold processAttr
  by_cases h1 : a.path.isIdent "inline" = true
  · simp [h1]
  · simp only [Bool.not_eq_true] at h1
    simp only [h1]
    by_cases h2 : a.path.isIdent "into" = true
    · simp [h2]
      split <;> split <;> rfl
    · simp only [Bool.not_eq_true] at h2
      simp only [h2]
      by_cases h3 : a.path.isIdent "call" = true
      · simp [h3]
        cases classifyCallArg a.tokens <;> simp <;> split <;> rfl
      · simp only [Bool.not_eq_true] at h3
        simp [h3]

theorem processAttr_callName (s : AttrScanState) (a : Attr) :
    (processAttr s a).callName =
      (match (motive := CallArg → Option String)
          (if a.path.isIdent "call" then classifyCallArg a.tokens else CallArg.malformed) with
        | CallArg.parenIdent n => some n
        | _ => s.callName) := by
  unfold processAttr
  by_cases h1 : a.path.isIdent "inline" = true
  · have h3 : a.path.isIdent "call" = false := by
      by_contra h
      simp at h
      exact absurd (AttrPath.isIdent_unique h1 h) (by decide)
    simp [h1, h3]
  · simp only [Bool.not_eq_true] at h1
    simp only [h1]
    by_cases h2 : a.path.isIdent "into" = true
    · have h3 : a.path.isIdent "call" = false := by
        by_contra h
        simp at h
        exact absurd (AttrPath.isIdent_unique h2 h) (by decide)
      simp [h2, h3]
      split <;> split <;> rfl
    · simp only [Bool.not_eq_true] at h2
      simp only [h2]
      by_cases h3 : a.path.isIdent "call" = true
      · simp [h3]
        cases classifyCallArg a.tokens <;> simp <;> split <;> rfl
      · simp only [Bool.not_eq_true] at h3
        simp [h3]

theorem foldl_processAttr_kept (l : List Attr) (s : AttrScanState) :
    (l.foldl processAttr s).kept = s.kept ++ l.filter keepsAttr := by
  induction l generalizing s with
  | nil => simp
  | cons a l ih =>
      rw [List.foldl_cons, ih, List.filter_cons]
      by_cases h : keepsAttr a = true
      · simp [h, processAttr_kept]
      · simp only [Bool.not_eq_true] at h
        simp [h, processAttr_kept]

theorem foldl_processAttr_hasInto (l : List Attr) (s : AttrScanState) :
    (l.foldl processAttr s).hasInto =
      (s.hasInto || l.any (fun a => a.path.isIdent "into")) := by
  induction l generalizing s with
  | nil => simp
  | cons a l ih =>
      rw [List.foldl_cons, ih]
      simp [processAttr_hasInto, Bool.or_assoc]

theorem foldl_processAttr_hasInline (l : List Attr) (s : AttrScanState) :
    (l.foldl processAttr s).hasInline =
      (s.hasInline || l.any (fun a => a.path.isIdent "inline")) := by
  induction l generalizing s with
  | nil => simp
  | cons a l ih =>
      rw [List.foldl_cons, ih]
      simp [processAttr_hasInline, Bool.or_assoc]

/-- An attribute carrying none of the three recognized directive paths. -/
def nonDirective (a : Attr) : Bool :=
  !(a.path.isIdent "inline" || a.path.isIdent "into" || a.path.isIdent "call")

theorem processAttr_nonDirective {a : Attr} (h : nonDirective a = true)
    (s : AttrScanState) : processAttr s a = { s with kept := s.kept ++ [a] } := by
  unfold nonDirective at h
  simp only [Bool.not_eq_true', Bool.or_eq_false_iff] at h
  unfold processAttr
  simp [h.1.1, h.1.2, h.2]

/-- Scanning a list of non-directive attributes only appends them to the
retained list. -/
theorem foldl_processAttr_nonDirective {l : List Attr}
    (h : ∀ a ∈ l, nonDirective a = true) (s : AttrScanState) :
    l.foldl processAttr s = { s with kept := s.kept ++ l } := by
  induction l generalizing s with
  | nil => simp
  | cons a l ih =>
      rw [List.foldl_cons, processAttr_nonDirective (h a (by simp))]
      rw [ih (fun x hx => h x (by simp [hx]))]
      simp

end AttrScanLemmas

section MethodLemmas

/-- The call generated for a successfully rewritten method: the
self-substituted receiver, the call name (`#[call]` target or the
method's own name), and the projected arguments. -/
def methodCall (m : ImplItemMethod) (r : List TokenTree) : Call :=
  { recv := replace_self r (extractSelf m.sig.inputs).1
    name := ((attrScan m.attrs).callName).getD m.sig.ident
    args := (projectArgs 1 (m.sig.inputs.drop 1)).1 }

/-- The body generated for a successfully rewritten method
(src/lib.rs:303-309). -/
def methodBody (m : ImplItemMethod) (r : List TokenTree) : Body :=
  match m.sig.output with
  | ReturnType.default => Body.stmt (methodCall m r)
  | ReturnType.type ty =>
      if (attrScan m.attrs).hasInto then Body.intoWrap ty (methodCall m r)
      else Body.bare (methodCall m r)

/-- `delegate_method` in closed form: diagnostics alone when any were
accumulated, the rewritten method otherwise. -/
theorem delegate_method_eq (m : ImplItemMethod) (r : List TokenTree) :
    delegate_method m r =
      if (methodErrors m).isEmpty then
        MethodOutput.method (attrScan m.attrs).kept (!(attrScan m.attrs).hasInline)
          m.vis m.defaultness m.sig (methodBody m r)
      else MethodOutput.errors (methodErrors m) := by
  unfold delegate_method methodBody methodCall
  rfl

/-- Inversion: a successful rewrite pins down every component of the
output. -/
theorem delegate_method_success {m : ImplItemMethod} {r : List TokenTree}
    {a : List Attr} {f : Bool} {v : List TokenTree} {d : Bool} {sg : Signature} {b : Body}
    (h : delegate_method m r = MethodOutput.method a f v d sg b) :
    methodErrors m = [] ∧ a = (attrScan m.attrs).kept ∧
      f = !(attrScan m.attrs).hasInline ∧ v = m.vis ∧ d = m.defaultness ∧
      sg = m.sig ∧ b = methodBody m r := by
  rw [delegate_method_eq] at h
  by_cases he : (methodErrors m).isEmpty = true
  · rw [if_pos he] at h
    have he2 : methodErrors m = [] := by
      cases hm : methodErrors m with
      | nil => rfl
      | cons x xs => rw [hm] at he; simp [List.isEmpty] at he
    refine ⟨he2, ?_⟩
    cases h
    exact ⟨rfl, rfl, rfl, rfl, rfl, rfl⟩
  · simp only [Bool.not_eq_true] at he
    rw [if_neg (by simp [he])] at h
    exact absurd h (by simp)

/-- When any diagnostic was accumulated, the output is exactly the
diagnostics, with no synthesized method. -/
theorem delegate_method_failure {m : ImplItemMethod} (r : List TokenTree)
    (h : methodErrors m ≠ []) :
    delegate_method m r = MethodOutput.errors (methodErrors m) := by
  rw [delegate_method_eq, if_neg]
  cases hm : methodErrors m with
  | nil => exact absurd hm h
  | cons x xs => simp [List.isEmpty]

end MethodLemmas

section BodyHelpers

/-- The call expression inside a generated body. -/
def Body.call : Body → Call
  | Body.stmt c => c
  | Body.intoWrap _ c => c
  | Body.bare c => c

/-- Whether a generated body is the statement-terminated call. -/
def Body.isStmt : Body → Bool
  | Body.stmt _ => true
  | _ => false

/-- Whether a generated body is the conversion-wrapped call. -/
def Body.isIntoWrap : Body → Bool
  | Body.intoWrap _ _ => true
  | _ => false

/-- Whether a generated body is the bare call. -/
def Body.isBare : Body → Bool
  | Body.bare _ => true
  | _ => false

/-- Whether a signature declares no return type. -/
def ReturnType.isDefault : ReturnType → Bool
  | ReturnType.default => true
  | _ => false

/-- Number of diagnostics carrying a given message. -/
def countMsg (msg : String) (l : List Diag) : Nat :=
  (l.filter (fun d => d.2 = msg)).length

theorem countMsg_append (msg : String) (a b : List Diag) :
    countMsg msg (a ++ b) = countMsg msg a + countMsg msg b := by
  simp [countMsg]

end BodyHelpers

section Claims

/-- C3: the receiver rewrite substitutes every occurrence of the whole
lexical token `self` in the receiver expression with the canonical
self-token, recursing into arbitrarily nested bracketed groups; it never
alters identifiers that merely contain "self" as a substring (whole-token
matching: any identifier other than `self` keeps all its occurrences);
and when the receiver contains no `self` token at all, the output equals
the input unchanged. -/
theorem claim_C3_receiver_rewrite (e st : List TokenTree) :
    countIdentStream "self" (replace_self e st) =
        countIdentStream "self" e * countIdentStream "self" st
    ∧ (∀ s : String, s ≠ "self" →
        countIdentStream s (replace_self e st) =
          countIdentStream s e + countIdentStream "self" e * countIdentStream s st)
    ∧ (countIdentStream "self" e = 0 → replace_self e st = e) :=
  ⟨countIdentStream_replace_self_self e st,
   fun s hs => countIdentStream_replace_self_other s hs e st,
   replace_self_no_self e st⟩

/-- Witness for C3: a receiver `self.inner(self)[myself]` with a
self-reference nested inside a group; `myself` is untouched and both
`self` tokens are substituted. -/
theorem claim_C3_witness :
    ("myself" ≠ "self"
      ∧ countIdentStream "myself"
          (replace_self
            [TokenTree.ident "self", TokenTree.punct '.', TokenTree.ident "inner",
              TokenTree.group Delim.paren [TokenTree.ident "self"],
              TokenTree.group Delim.bracket [TokenTree.ident "myself"]]
            [TokenTree.ident "self"]) =
        countIdentStream "myself"
          [TokenTree.ident "self", TokenTree.punct '.', TokenTree.ident "inner",
            TokenTree.group Delim.paren [TokenTree.ident "self"],
            TokenTree.group Delim.bracket [TokenTree.ident "myself"]] +
          countIdentStream "self"
            [TokenTree.ident "self", TokenTree.punct '.', TokenTree.ident "inner",
              TokenTree.group Delim.paren [TokenTree.ident "self"],
              TokenTree.group Delim.bracket [TokenTree.ident "myself"]] *
            countIdentStream "myself" [TokenTree.ident "self"])
    ∧ countIdentStream "self"
        (replace_self
          [TokenTree.ident "self", TokenTree.punct '.', TokenTree.ident "inner",
            TokenTree.group Delim.paren [TokenTree.ident "self"],
            TokenTree.group Delim.bracket [TokenTree.ident "myself"]]
          [TokenTree.ident "self"]) =
      countIdentStream "self"
          [TokenTree.ident "self", TokenTree.punct '.', TokenTree.ident "inner",
            TokenTree.group Delim.paren [TokenTree.ident "self"],
            TokenTree.group Delim.bracket [TokenTree.ident "myself"]] *
        countIdentStream "self" [TokenTree.ident "self"] :=
  ⟨⟨by decide,
    (claim_C3_receiver_rewrite _ _).2.1 "myself" (by decide)⟩,
   (claim_C3_receiver_rewrite _ _).1⟩

/-- C1: a method signature carrying no directive attributes rewrites to a
method marked `#[inline(always)]` whose body calls the method of the same
name with no return conversion; in particular, receiver `self.0` and the
bare signature `fn len(&self) -> usize;` yield the body `self.0.len()`. -/
theorem claim_C1_default_behavior (m : ImplItemMethod) (r : List TokenTree)
    (hnd : ∀ a ∈ m.attrs, nonDirective a = true) :
    (∀ a f v d sg b, delegate_method m r = MethodOutput.method a f v d sg b →
      f = true ∧ (Body.call b).name = m.sig.ident ∧ Body.isIntoWrap b = false)
    ∧ delegate_method
        { attrs := [], vis := [], defaultness := false,
          sig := { ident := "len", inputs := [FnArg.receiver true false],
                   output := ReturnType.type [TokenTree.ident "usize"] },
          block := [] }
        [TokenTree.ident "self", TokenTree.punct '.', TokenTree.lit "0"] =
      MethodOutput.method [] true [] false
        { ident := "len", inputs := [FnArg.receiver true false],
          output := ReturnType.type [TokenTree.ident "usize"] }
        (Body.bare
          { recv := [TokenTree.ident "self", TokenTree.punct '.', TokenTree.lit "0"],
            name := "len", args := [] }) := by
  constructor
  · intro a f v d sg b h
    obtain ⟨-, -, hf, -, -, -, hb⟩ := delegate_method_success h
    have hscan : attrScan m.attrs =
        { hasInline := false, hasInto := false, callName := none,
          kept := m.attrs, errors := [] } := by
      unfold attrScan
      rw [foldl_processAttr_nonDirective hnd]
      simp
    refine ⟨?_, ?_, ?_⟩
    · rw [hf, hscan]
      rfl
    · rw [hb]
      unfold methodBody methodCall
      cases m.sig.output with
      | default => simp [Body.call, hscan]
      | type ty => simp [hscan, Body.call]
    · rw [hb]
      unfold methodBody
      cases m.sig.output with
      | default => simp [Body.isIntoWrap]
      | type ty => simp [hscan, Body.isIntoWrap]
  · rw [delegate_method_eq]
    simp [methodErrors, attrScan, extractSelf, projectArgs, processAttr,
      methodBody, methodCall, replace_self]

/-- Witness for C1: the block-delegation scenario itself, obtained by
applying the claim with the empty (hence directive-free) attribute
list. -/
theorem claim_C1_witness :
    delegate_method
        { attrs := [], vis := [], defaultness := false,
          sig := { ident := "len", inputs := [FnArg.receiver true false],
                   output := ReturnType.type [TokenTree.ident "usize"] },
          block := [] }
        [TokenTree.ident "self", TokenTree.punct '.', TokenTree.lit "0"] =
      MethodOutput.method [] true [] false
        { ident := "len", inputs := [FnArg.receiver true false],
          output := ReturnType.type [TokenTree.ident "usize"] }
        (Body.bare
          { recv := [TokenTree.ident "self", TokenTree.punct '.', TokenTree.lit "0"],
            name := "len", args := [] }) :=
  (claim_C1_default_behavior
    { attrs := [], vis := [], defaultness := false,
      sig := { ident := "len", inputs := [FnArg.receiver true false],
               output := ReturnType.type [TokenTree.ident "usize"] },
      block := [] }
    [TokenTree.ident "self", TokenTree.punct '.', TokenTree.lit "0"]
    (by simp)).2

/-- C5: if any diagnostic is produced while processing a method, the
output for that method is exactly the accumulated diagnostics and no
synthesized body; block members are processed independently of their
siblings (the output at one index is a function of the member at that
index alone); and the missing-self scenario `fn len(x: &Foo) -> usize;`
yields the invalid-self diagnostic and no generated body. -/
theorem claim_C5_diagnostics_replace_body :
    (∀ (m : ImplItemMethod) (r : List TokenTree), methodErrors m ≠ [] →
      delegate_method m r = MethodOutput.errors (methodErrors m))
    ∧ (∀ (b : ItemImpl) (r : List TokenTree) (i : Nat),
        (delegate_impl_block b r).items[i]? = (b.items[i]?).map (processImplItem r))
    ∧ (∀ (b₁ b₂ : ItemImpl) (r : List TokenTree) (i : Nat),
        b₁.items[i]? = b₂.items[i]? →
        (delegate_impl_block b₁ r).items[i]? = (delegate_impl_block b₂ r).items[i]?)
    ∧ delegate_method
        { attrs := [], vis := [], defaultness := false,
          sig := { ident := "len",
                   inputs := [FnArg.typed (Pat.ident false false "x")
                       [TokenTree.punct '&', TokenTree.ident "Foo"]],
                   output := ReturnType.type [TokenTree.ident "usize"] },
          block := [] }
        [TokenTree.ident "self", TokenTree.punct '.', TokenTree.lit "0"] =
      MethodOutput.errors [(Span.patWhole 0, "expected self")] := by
  have hmap : ∀ (b : ItemImpl) (r : List TokenTree) (i : Nat),
      (delegate_impl_block b r).items[i]? = (b.items[i]?).map (processImplItem r) := by
    intro b r i
    simp [delegate_impl_block]
  refine ⟨fun m r h => delegate_method_failure r h, hmap, ?_, ?_⟩
  · intro b₁ b₂ r i h
    rw [hmap, hmap, h]
  · rw [delegate_method_eq]
    simp [methodErrors, attrScan, extractSelf, projectArgs, processAttr]

/-- Witness for C5: the missing-self scenario, with the nonempty
diagnostic list discharged concretely. -/
theorem claim_C5_witness :
    methodErrors
        { attrs := [], vis := [], defaultness := false,
          sig := { ident := "len",
                   inputs := [FnArg.typed (Pat.ident false false "x")
                       [TokenTree.punct '&', TokenTree.ident "Foo"]],
                   output := ReturnType.type [TokenTree.ident "usize"] },
          block := [] } ≠ []
    ∧ delegate_method
        { attrs := [], vis := [], defaultness := false,
          sig := { ident := "len",
                   inputs := [FnArg.typed (Pat.ident false false "x")
                       [TokenTree.punct '&', TokenTree.ident "Foo"]],
                   output := ReturnType.type [TokenTree.ident "usize"] },
          block := [] }
        [TokenTree.ident "self", TokenTree.punct '.', TokenTree.lit "0"] =
      MethodOutput.errors
        (methodErrors
          { attrs := [], vis := [], defaultness := false,
            sig := { ident := "len",
                     inputs := [FnArg.typed (Pat.ident false false "x")
                         [TokenTree.punct '&', TokenTree.ident "Foo"]],
                     output := ReturnType.type [TokenTree.ident "usize"] },
            block := [] }) :=
  ⟨by simp [methodErrors, attrScan, extractSelf, projectArgs, processAttr],
   claim_C5_diagnostics_replace_body.1 _ _
     (by simp [methodErrors, attrScan, extractSelf, projectArgs, processAttr])⟩

/-- Whether a pattern is an identifier pattern binding the literal name
`self`. -/
def Pat.isSelfIdent : Pat → Bool
  | Pat.ident _ _ n => n = "self"
  | _ => false

/-- C8: receiver-slot classification accepts exactly an implicit receiver
form or an explicitly typed first parameter whose binding name is
literally `self`, producing the `self` spelling as canonical self-token;
an empty parameter list is the missing-self diagnostic at the signature
parentheses, and a present but non-self-like first parameter is the
invalid-self diagnostic at that parameter. -/
theorem claim_C8_receiver_classification :
    extractSelf [] = ([], [(Span.sigParen, "expected self")])
    ∧ (∀ (br mu : Bool) (rest : List FnArg),
        extractSelf (FnArg.receiver br mu :: rest) = ([TokenTree.ident "self"], []))
    ∧ (∀ (br mu : Bool) (ty : List TokenTree) (rest : List FnArg),
        extractSelf (FnArg.typed (Pat.ident br mu "self") ty :: rest) =
          ([TokenTree.ident "self"], []))
    ∧ (∀ (pat : Pat) (ty : List TokenTree) (rest : List FnArg),
        Pat.isSelfIdent pat = false →
        extractSelf (FnArg.typed pat ty :: rest) =
          ([], [(Span.patWhole 0, "expected self")])) := by
  refine ⟨rfl, fun br mu rest => rfl, fun br mu ty rest => by simp [extractSelf], ?_⟩
  intro pat ty rest h
  cases pat with
  | ident br mu n =>
      simp [Pat.isSelfIdent] at h
      simp [extractSelf, h]
  | other ts => rfl

/-- Witness for C8: a typed non-self first parameter `x: &Foo` is
rejected with the invalid-self diagnostic. -/
theorem claim_C8_witness :
    Pat.isSelfIdent (Pat.ident false false "x") = false
    ∧ extractSelf
        [FnArg.typed (Pat.ident false false "x")
          [TokenTree.punct '&', TokenTree.ident "Foo"]] =
      ([], [(Span.patWhole 0, "expected self")]) :=
  ⟨by decide,
   claim_C8_receiver_classification.2.2.2 (Pat.ident false false "x")
     [TokenTree.punct '&', TokenTree.ident "Foo"] [] (by decide)⟩

/-- C9: the dispatcher tries the implementation-block parse first, then
the single-method parse; when both fail, the first substantive token
after skipping leading attribute markers picks exactly one diagnostic —
`impl` gives the invalid-impl message, `fn` the invalid-method message,
anything else the unrecognized-input message — and a structurally empty
input terminates abnormally instead of producing a diagnostic. -/
theorem claim_C9_dispatcher :
    (∀ (block : ItemImpl) (asMethod : Option ImplItemMethod)
        (raw r : List TokenTree),
      delegate_input (some block) asMethod raw r =
        InputResult.implBlock (delegate_impl_block block r))
    ∧ (∀ (m : ImplItemMethod) (raw r : List TokenTree),
        delegate_input none (some m) raw r =
          InputResult.singleMethod (delegate_method m r))
    ∧ (∀ (raw r : List TokenTree) (t : TokenTree), firstNonAttrToken raw = some t →
        delegate_input none none raw r = InputResult.diag (Span.token t, fallbackMsg t))
    ∧ fallbackMsg (TokenTree.ident "impl") = "invalid impl block for #[delegate]"
    ∧ fallbackMsg (TokenTree.ident "fn") = "invalid method for #[delegate]"
    ∧ (∀ n : String, n ≠ "impl" → n ≠ "fn" →
        fallbackMsg (TokenTree.ident n) =
          "expected an impl block or method inside impl block")
    ∧ (∀ t : TokenTree, (∀ n : String, t ≠ TokenTree.ident n) →
        fallbackMsg t = "expected an impl block or method inside impl block")
    ∧ (∀ (d : Delim) (s rest : List TokenTree),
        firstNonAttrToken (TokenTree.punct '#' :: TokenTree.group d s :: rest) =
          firstNonAttrToken rest)
    ∧ (∀ (raw r : List TokenTree), firstNonAttrToken raw = none →
        delegate_input none none raw r = InputResult.fatal "unexpected eof")
    ∧ (∀ r : List TokenTree,
        delegate_input none none [] r = InputResult.fatal "unexpected eof") := by
  refine ⟨fun block am raw r => rfl, fun m raw r => rfl, ?_, rfl, rfl, ?_, ?_, ?_, ?_,
    fun r => rfl⟩
  · intro raw r t h
    simp [delegate_input, h]
  · intro n h1 h2
    simp [fallbackMsg, h1, h2]
  · intro t h
    cases t with
    | ident n => exact absurd rfl (h n)
    | punct ch => rfl
    | lit s => rfl
    | group d s => rfl
  · intro d s rest
    rfl
  · intro raw r h
    simp [delegate_input, h]

/-- Witness for C9: the input `#[cfg(test)] impl ...` fails both parses;
its first substantive token is `impl`, and the dispatcher reports the
invalid-impl diagnostic there. -/
theorem claim_C9_witness :
    firstNonAttrToken
        [TokenTree.punct '#',
          TokenTree.group Delim.bracket [TokenTree.ident "cfg"],
          TokenTree.ident "impl", TokenTree.ident "Foo"] =
      some (TokenTree.ident "impl")
    ∧ delegate_input none none
        [TokenTree.punct '#',
          TokenTree.group Delim.bracket [TokenTree.ident "cfg"],
          TokenTree.ident "impl", TokenTree.ident "Foo"]
        [TokenTree.ident "self"] =
      InputResult.diag (Span.token (TokenTree.ident "impl"),
        fallbackMsg (TokenTree.ident "impl")) :=
  ⟨rfl,
   claim_C9_dispatcher.2.2.1
     [TokenTree.punct '#',
       TokenTree.group Delim.bracket [TokenTree.ident "cfg"],
       TokenTree.ident "impl", TokenTree.ident "Foo"]
     [TokenTree.ident "self"] (TokenTree.ident "impl") rfl⟩

/-- The attribute scan's `has_into` flag is set exactly when some
attribute is the `into` directive. -/
theorem attrScan_hasInto (attrs : List Attr) :
    (attrScan attrs).hasInto = attrs.any fun a => a.path.isIdent "into" := by
  unfold attrScan
  rw [foldl_processAttr_hasInto]
  rfl

/-- The call of a successful body is the generated method call. -/
theorem Body.call_methodBody (m : ImplItemMethod) (r : List TokenTree) :
    Body.call (methodBody m r) = methodCall m r := by
  unfold methodBody
  cases m.sig.output with
  | default => rfl
  | type ty =>
      dsimp only
      split <;> rfl

/-- C2 counterexample: a method carrying the return-conversion directive
but declaring no return type produces the statement-terminated call, not
a conversion-wrapped one — so "conversion-wrapped iff the directive is
present" fails on this input. -/
theorem claim_C2_counterexample :
    delegate_method
        { attrs := [{ spanId := 0,
                      path := { leadingColon := false, segments := ["into"] },
                      tokens := [] }],
          vis := [], defaultness := false,
          sig := { ident := "answer", inputs := [FnArg.receiver true false],
                   output := ReturnType.default },
          block := [] }
        [TokenTree.ident "self", TokenTree.punct '.', TokenTree.lit "0"] =
      MethodOutput.method [] true [] false
        { ident := "answer", inputs := [FnArg.receiver true false],
          output := ReturnType.default }
        (Body.stmt
          { recv := [TokenTree.ident "self", TokenTree.punct '.', TokenTree.lit "0"],
            name := "answer", args := [] })
    ∧ (List.any
        ([{ spanId := 0,
            path := { leadingColon := false, segments := ["into"] },
            tokens := [] }] : List Attr)
        fun a => a.path.isIdent "into") = true
    ∧ Body.isIntoWrap
        (Body.stmt
          { recv := [TokenTree.ident "self", TokenTree.punct '.', TokenTree.lit "0"],
            name := "answer", args := [] }) = false := by
  refine ⟨?_, by simp [AttrPath.isIdent], rfl⟩
  rw [delegate_method_eq]
  simp [methodErrors, attrScan, extractSelf, projectArgs, processAttr,
    AttrPath.isIdent, methodBody, methodCall, replace_self]

/-- C2 (amended): for every successfully rewritten method the body is the
statement-terminated call iff the declared return type is absent, the
conversion-wrapped call iff the return-conversion directive is present
AND a return type is declared, and the bare call otherwise — three
mutually exclusive, exhaustive cases. -/
theorem claim_C2_return_shape (m : ImplItemMethod) (r : List TokenTree)
    (a : List Attr) (f : Bool) (v : List TokenTree) (d : Bool) (sg : Signature) (b : Body)
    (h : delegate_method m r = MethodOutput.method a f v d sg b) :
    Body.isStmt b = m.sig.output.isDefault
    ∧ Body.isIntoWrap b =
        ((m.attrs.any fun x => x.path.isIdent "into") && !m.sig.output.isDefault)
    ∧ Body.isBare b =
        (!(m.attrs.any fun x => x.path.isIdent "into") && !m.sig.output.isDefault) := by
  obtain ⟨-, -, -, -, -, -, hb⟩ := delegate_method_success h
  rw [hb]
  unfold methodBody
  rw [← attrScan_hasInto]
  cases m.sig.output with
  | default => simp [Body.isStmt, Body.isIntoWrap, Body.isBare, ReturnType.isDefault]
  | type ty =>
      by_cases hi : (attrScan m.attrs).hasInto = true
      · simp [hi, Body.isStmt, Body.isIntoWrap, Body.isBare, ReturnType.isDefault]
      · simp only [Bool.not_eq_true] at hi
        simp [hi, Body.isStmt, Body.isIntoWrap, Body.isBare, ReturnType.isDefault]

/-- Witness for C2: the directive-plus-no-return-type method evaluates to
the statement-terminated shape predicted by the amended trichotomy. -/
theorem claim_C2_witness :
    Body.isStmt
        (Body.stmt
          { recv := [TokenTree.ident "self", TokenTree.punct '.', TokenTree.lit "0"],
            name := "answer", args := [] }) =
      ReturnType.isDefault ReturnType.default
    ∧ Body.isIntoWrap
        (Body.stmt
          { recv := [TokenTree.ident "self", TokenTree.punct '.', TokenTree.lit "0"],
            name := "answer", args := [] }) =
      ((List.any
          ([{ spanId := 0,
              path := { leadingColon := false, segments := ["into"] },
              tokens := [] }] : List Attr)
          fun x => x.path.isIdent "into") && !ReturnType.isDefault ReturnType.default) := by
  have h : delegate_method
      { attrs := [{ spanId := 0,
                    path := { leadingColon := false, segments := ["into"] },
                    tokens := [] }],
        vis := [], defaultness := false,
        sig := { ident := "answer", inputs := [FnArg.receiver true false],
                 output := ReturnType.default },
        block := [] }
      [TokenTree.ident "self", TokenTree.punct '.', TokenTree.lit "0"] =
      MethodOutput.method [] true [] false
        { ident := "answer", inputs := [FnArg.receiver true false],
          output := ReturnType.default }
        (Body.stmt
          { recv := [TokenTree.ident "self", TokenTree.punct '.', TokenTree.lit "0"],
            name := "answer", args := [] }) := by
    rw [delegate_method_eq]
    simp [methodErrors, attrScan, extractSelf, projectArgs, processAttr,
      AttrPath.isIdent, methodBody, methodCall, replace_self]
  have hc := claim_C2_return_shape _ _ _ _ _ _ _ _ h
  exact ⟨hc.1, hc.2.1⟩

/-- Projection of a run of plain identifier parameters (no `ref`/`mut`
modifier): the arguments are exactly the bound names, in order, and no
diagnostics arise; the declared types play no role. -/
theorem projectArgs_plain (ps : List (String × List TokenTree)) : ∀ i : Nat,
    projectArgs i (ps.map fun p => FnArg.typed (Pat.ident false false p.1) p.2) =
      (ps.map fun p => [TokenTree.ident p.1], []) := by
  induction ps with
  | nil => intro i; rfl
  | cons p ps ih =>
      intro i
      simp [projectArgs, ih, Pat.tokens]

/-- C4 counterexample: a parameter bound as `mut value` is forwarded as
the tokens `mut value`, not as the bare identifier `value` — parameter
binding modifiers leak into the generated call. -/
theorem claim_C4_counterexample :
    delegate_method
        { attrs := [], vis := [], defaultness := false,
          sig := { ident := "push",
                   inputs := [FnArg.receiver true false,
                     FnArg.typed (Pat.ident false true "value") [TokenTree.ident "u32"]],
                   output := ReturnType.default },
          block := [] }
        [TokenTree.ident "self", TokenTree.punct '.', TokenTree.lit "0"] =
      MethodOutput.method [] true [] false
        { ident := "push",
          inputs := [FnArg.receiver true false,
            FnArg.typed (Pat.ident false true "value") [TokenTree.ident "u32"]],
          output := ReturnType.default }
        (Body.stmt
          { recv := [TokenTree.ident "self", TokenTree.punct '.', TokenTree.lit "0"],
            name := "push",
            args := [[TokenTree.ident "mut", TokenTree.ident "value"]] })
    ∧ [[TokenTree.ident "mut", TokenTree.ident "value"]] ≠
        [[TokenTree.ident "value"]] := by
  constructor
  · rw [delegate_method_eq]
    simp [methodErrors, attrScan, extractSelf, projectArgs, processAttr,
      methodBody, methodCall, replace_self, Pat.tokens]
  · simp

/-- C4 (amended): for every method whose non-self parameters are plain
identifier bindings `p1..pN` (no `ref`/`mut` modifier and no
destructuring), the generated call's arguments are exactly the
identifiers `p1, ..., pN` in the original order, with the parameter
types discarded. -/
theorem claim_C4_argument_forwarding (m : ImplItemMethod) (r : List TokenTree)
    (first : FnArg) (ps : List (String × List TokenTree))
    (hin : m.sig.inputs =
      first :: (ps.map fun p => FnArg.typed (Pat.ident false false p.1) p.2))
    (a : List Attr) (f : Bool) (v : List TokenTree) (d : Bool) (sg : Signature) (b : Body)
    (h : delegate_method m r = MethodOutput.method a f v d sg b) :
    (Body.call b).args = ps.map fun p => [TokenTree.ident p.1] := by
  obtain ⟨-, -, -, -, -, -, hb⟩ := delegate_method_success h
  rw [hb, Body.call_methodBody]
  unfold methodCall
  rw [hin]
  simp [projectArgs_plain]

/-- Witness for C4: two plain parameters `x` and `y` are forwarded as
exactly those identifiers, in order. -/
theorem claim_C4_witness :
    (Body.call
        (Body.stmt
          { recv := [TokenTree.ident "self", TokenTree.punct '.', TokenTree.lit "0"],
            name := "set",
            args := [[TokenTree.ident "x"], [TokenTree.ident "y"]] })).args =
      [[TokenTree.ident "x"], [TokenTree.ident "y"]] := by
  have h : delegate_method
      { attrs := [], vis := [], defaultness := false,
        sig := { ident := "set",
                 inputs := [FnArg.receiver true false,
                   FnArg.typed (Pat.ident false false "x") [TokenTree.ident "u32"],
                   FnArg.typed (Pat.ident false false "y") [TokenTree.ident "u64"]],
                 output := ReturnType.default },
        block := [] }
      [TokenTree.ident "self", TokenTree.punct '.', TokenTree.lit "0"] =
      MethodOutput.method [] true [] false
        { ident := "set",
          inputs := [FnArg.receiver true false,
            FnArg.typed (Pat.ident false false "x") [TokenTree.ident "u32"],
            FnArg.typed (Pat.ident false false "y") [TokenTree.ident "u64"]],
          output := ReturnType.default }
        (Body.stmt
          { recv := [TokenTree.ident "self", TokenTree.punct '.', TokenTree.lit "0"],
            name := "set",
            args := [[TokenTree.ident "x"], [TokenTree.ident "y"]] }) := by
    rw [delegate_method_eq]
    simp [methodErrors, attrScan, extractSelf, projectArgs, processAttr,
      methodBody, methodCall, replace_self, Pat.tokens]
  exact claim_C4_argument_forwarding _ _ (FnArg.receiver true false)
    [("x", [TokenTree.ident "u32"]), ("y", [TokenTree.ident "u64"])] rfl
    _ _ _ _ _ _ h

/-- C6 counterexample: a user-supplied `#[inline]` directive is
recognized (it suppresses the default force-inline marker) but is NOT
removed: it is re-emitted on the rewritten method, contradicting
"consumed, never re-emitted" for the inline-preference directive. -/
theorem claim_C6_counterexample :
    delegate_method
        { attrs := [{ spanId := 0,
                      path := { leadingColon := false, segments := ["inline"] },
                      tokens := [] }],
          vis := [], defaultness := false,
          sig := { ident := "len", inputs := [FnArg.receiver true false],
                   output := ReturnType.type [TokenTree.ident "usize"] },
          block := [] }
        [TokenTree.ident "self", TokenTree.punct '.', TokenTree.lit "0"] =
      MethodOutput.method
        [{ spanId := 0,
           path := { leadingColon := false, segments := ["inline"] },
           tokens := [] }]
        false [] false
        { ident := "len", inputs := [FnArg.receiver true false],
          output := ReturnType.type [TokenTree.ident "usize"] }
        (Body.bare
          { recv := [TokenTree.ident "self", TokenTree.punct '.', TokenTree.lit "0"],
            name := "len", args := [] })
    ∧ (AttrPath.mk false ["inline"]).isIdent "inline" = true := by
  constructor
  · rw [delegate_method_eq]
    simp [methodErrors, attrScan, extractSelf, projectArgs, processAttr,
      AttrPath.isIdent, methodBody, methodCall, replace_self]
  · simp [AttrPath.isIdent]

/-- C6 (amended): on a successful rewrite the emitted attribute list is
exactly the original list with the `into` and `call` directives removed:
the inline-preference directive and every non-directive attribute are
preserved verbatim in their original order, and no removed directive is
ever re-emitted. -/
theorem claim_C6_attr_passthrough (m : ImplItemMethod) (r : List TokenTree)
    (a : List Attr) (f : Bool) (v : List TokenTree) (d : Bool) (sg : Signature) (b : Body)
    (h : delegate_method m r = MethodOutput.method a f v d sg b) :
    a = m.attrs.filter keepsAttr
    ∧ (∀ x ∈ m.attrs, (x.path.isIdent "into" || x.path.isIdent "call") = true → x ∉ a)
    ∧ (∀ x ∈ m.attrs, keepsAttr x = true → x ∈ a) := by
  obtain ⟨-, ha, -, -, -, -, -⟩ := delegate_method_success h
  have hfilter : a = m.attrs.filter keepsAttr := by
    rw [ha]
    unfold attrScan
    rw [foldl_processAttr_kept]
    rfl
  refine ⟨hfilter, ?_, ?_⟩
  · intro x hx hdir hmem
    rw [hfilter] at hmem
    have hk := (List.mem_filter.mp hmem).2
    unfold keepsAttr at hk
    rw [hdir] at hk
    simp at hk
  · intro x hx hk
    rw [hfilter]
    exact List.mem_filter.mpr ⟨hx, hk⟩

/-- Witness for C6: a documentation attribute followed by an `into`
directive — on the rewritten method the directive is gone and the other
attribute is preserved in place. -/
theorem claim_C6_witness :
    ([{ spanId := 0,
        path := { leadingColon := false, segments := ["doc"] },
        tokens := [TokenTree.lit "docs"] }] : List Attr) =
      List.filter keepsAttr
        ([{ spanId := 0,
            path := { leadingColon := false, segments := ["doc"] },
            tokens := [TokenTree.lit "docs"] },
          { spanId := 1,
            path := { leadingColon := false, segments := ["into"] },
            tokens := [] }] : List Attr) := by
  have h : delegate_method
      { attrs := [{ spanId := 0,
                    path := { leadingColon := false, segments := ["doc"] },
                    tokens := [TokenTree.lit "docs"] },
                  { spanId := 1,
                    path := { leadingColon := false, segments := ["into"] },
                    tokens := [] }],
        vis := [], defaultness := false,
        sig := { ident := "len", inputs := [FnArg.receiver true false],
                 output := ReturnType.type [TokenTree.ident "usize"] },
        block := [] }
      [TokenTree.ident "self", TokenTree.punct '.', TokenTree.lit "0"] =
      MethodOutput.method
        [{ spanId := 0,
           path := { leadingColon := false, segments := ["doc"] },
           tokens := [TokenTree.lit "docs"] }]
        true [] false
        { ident := "len", inputs := [FnArg.receiver true false],
          output := ReturnType.type [TokenTree.ident "usize"] }
        (Body.intoWrap [TokenTree.ident "usize"]
          { recv := [TokenTree.ident "self", TokenTree.punct '.', TokenTree.lit "0"],
            name := "len", args := [] }) := by
    rw [delegate_method_eq]
    simp [methodErrors, attrScan, extractSelf, projectArgs, processAttr,
      AttrPath.isIdent, methodBody, methodCall, replace_self]
  exact (claim_C6_attr_passthrough _ _ _ _ _ _ _ _ h).1

/-- Every diagnostic of the self-extraction step carries the
`expected self` message. -/
theorem extractSelf_msgs (inputs : List FnArg) :
    ∀ d ∈ (extractSelf inputs).2, d.2 = "expected self" := by
  match inputs with
  | [] => intro d hd; simp [extractSelf] at hd; rw [hd]
  | FnArg.receiver br mu :: rest => intro d hd; simp [extractSelf] at hd
  | FnArg.typed pat ty :: rest =>
      intro d hd
      cases pat with
      | ident br mu n =>
          by_cases h : n = "self"
          · simp [extractSelf, h] at hd
          · simp [extractSelf, h] at hd
            rw [hd]
      | other ts =>
          simp [extractSelf] at hd
          rw [hd]

/-- Every diagnostic of the argument projection carries one of its two
messages. -/
theorem projectArgs_msgs (l : List FnArg) : ∀ (i : Nat), ∀ d ∈ (projectArgs i l).2,
    d.2 = "expect an identifier" ∨ d.2 = "unexpected argument" := by
  induction l with
  | nil => intro i d hd; simp [projectArgs] at hd
  | cons arg rest ih =>
      intro i d hd
      cases arg with
      | typed pat ty =>
          cases pat with
          | ident br mu n =>
              simp [projectArgs] at hd
              exact ih (i + 1) d hd
          | other ts =>
              simp [projectArgs] at hd
              rcases hd with hd | hd
              · left; rw [hd]
              · exact ih (i + 1) d hd
      | receiver br mu =>
          simp [projectArgs] at hd
          rcases hd with hd | hd
          · right; rw [hd]
          · exact ih (i + 1) d hd

/-- A message absent from every diagnostic of a list is counted zero
times. -/
theorem countMsg_zero {msg : String} {l : List Diag}
    (h : ∀ d ∈ l, d.2 ≠ msg) : countMsg msg l = 0 := by
  unfold countMsg
  rw [List.length_eq_zero]
  rw [List.filter_eq_nil]
  intro d hd
  simp [h d hd]

/-- C7: a method carrying exactly two rename-target directives, each with
a single bare identifier argument, yields exactly one duplicate-directive
diagnostic (not two, and no crash — the rewrite is a total function), and
no method body is generated. -/
theorem claim_C7_duplicate_call (m : ImplItemMethod) (r : List TokenTree)
    (i1 i2 : Nat) (n1 n2 : String)
    (hattrs : m.attrs =
      [{ spanId := i1, path := { leadingColon := false, segments := ["call"] },
         tokens := [TokenTree.group Delim.paren [TokenTree.ident n1]] },
       { spanId := i2, path := { leadingColon := false, segments := ["call"] },
         tokens := [TokenTree.group Delim.paren [TokenTree.ident n2]] }]) :
    countMsg "duplicate #[call] attribute" (methodErrors m) = 1
    ∧ delegate_method m r = MethodOutput.errors (methodErrors m) := by
  have hscan : (attrScan m.attrs).errors =
      [(Span.attrWhole i2, "duplicate #[call] attribute")] := by
    rw [hattrs]
    simp [attrScan, processAttr, classifyCallArg, AttrPath.isIdent]
  have herr : methodErrors m =
      [(Span.attrWhole i2, "duplicate #[call] attribute")] ++
        (extractSelf m.sig.inputs).2 ++ (projectArgs 1 (m.sig.inputs.drop 1)).2 := by
    unfold methodErrors
    rw [hscan]
  constructor
  · rw [herr, countMsg_append, countMsg_append]
    have h1 : countMsg "duplicate #[call] attribute"
        [(Span.attrWhole i2, "duplicate #[call] attribute")] = 1 := by
      simp [countMsg]
    have h2 : countMsg "duplicate #[call] attribute" (extractSelf m.sig.inputs).2 = 0 := by
      apply countMsg_zero
      intro d hd
      rw [extractSelf_msgs m.sig.inputs d hd]
      decide
    have h3 : countMsg "duplicate #[call] attribute"
        (projectArgs 1 (m.sig.inputs.drop 1)).2 = 0 := by
      apply countMsg_zero
      intro d hd
      rcases projectArgs_msgs (m.sig.inputs.drop 1) 1 d hd with hm | hm <;>
        rw [hm] <;> decide
    rw [h1, h2, h3]
  · apply delegate_method_failure
    rw [herr]
    simp

/-- Witness for C7: two `#[call(a)]`/`#[call(b)]` directives on a
well-formed signature produce exactly one duplicate diagnostic and an
errors-only output. -/
theorem claim_C7_witness :
    countMsg "duplicate #[call] attribute"
        (methodErrors
          { attrs :=
              [{ spanId := 0, path := { leadingColon := false, segments := ["call"] },
                 tokens := [TokenTree.group Delim.paren [TokenTree.ident "a"]] },
               { spanId := 1, path := { leadingColon := false, segments := ["call"] },
                 tokens := [TokenTree.group Delim.paren [TokenTree.ident "b"]] }],
            vis := [], defaultness := false,
            sig := { ident := "size", inputs := [FnArg.receiver true false],
                     output := ReturnType.type [TokenTree.ident "usize"] },
            block := [] }) = 1
    ∧ delegate_method
        { attrs :=
            [{ spanId := 0, path := { leadingColon := false, segments := ["call"] },
               tokens := [TokenTree.group Delim.paren [TokenTree.ident "a"]] },
             { spanId := 1, path := { leadingColon := false, segments := ["call"] },
               tokens := [TokenTree.group Delim.paren [TokenTree.ident "b"]] }],
          vis := [], defaultness := false,
          sig := { ident := "size", inputs := [FnArg.receiver true false],
                   output := ReturnType.type [TokenTree.ident "usize"] },
          block := [] }
        [TokenTree.ident "self", TokenTree.punct '.', TokenTree.lit "0"] =
      MethodOutput.errors
        (methodErrors
          { attrs :=
              [{ spanId := 0, path := { leadingColon := false, segments := ["call"] },
                 tokens := [TokenTree.group Delim.paren [TokenTree.ident "a"]] },
               { spanId := 1, path := { leadingColon := false, segments := ["call"] },
                 tokens := [TokenTree.group Delim.paren [TokenTree.ident "b"]] }],
            vis := [], defaultness := false,
            sig := { ident := "size", inputs := [FnArg.receiver true false],
                     output := ReturnType.type [TokenTree.ident "usize"] },
            block := [] }) :=
  claim_C7_duplicate_call _
    [TokenTree.ident "self", TokenTree.punct '.', TokenTree.lit "0"] 0 1 "a" "b" rfl

/-- Scanning a non-`into` attribute neither reads nor writes the
`has_into` flag. -/
theorem processAttr_hasInto_indep {a : Attr} (h : a.path.isIdent "into" = false)
    (s : AttrScanState) (b : Bool) :
    processAttr { s with hasInto := b } a = { processAttr s a with hasInto := b } := by
  unfold processAttr
  by_cases h1 : a.path.isIdent "inline" = true
  · simp [h1]
  · simp only [Bool.not_eq_true] at h1
    simp only [h1, h, Bool.false_eq_true, if_false]
    by_cases h3 : a.path.isIdent "call" = true
    · simp only [h3, if_true]
      cases classifyCallArg a.tokens with
      | parenIdent n => dsimp only; split <;> rfl
      | parenNonIdent => rfl
      | malformed => rfl
    · simp only [Bool.not_eq_true] at h3
      simp [h3]

/-- Scanning a run of non-`into` attributes is independent of the
`has_into` flag, which passes through unchanged. -/
theorem foldl_processAttr_hasInto_indep {l : List Attr}
    (h : ∀ a ∈ l, a.path.isIdent "into" = false) (s : AttrScanState) (b : Bool) :
    l.foldl processAttr { s with hasInto := b } =
      { l.foldl processAttr s with hasInto := b } := by
  induction l generalizing s with
  | nil => simp
  | cons a l ih =>
      rw [List.foldl_cons, processAttr_hasInto_indep (h a (by simp)) s b,
        List.foldl_cons]
      exact ih (fun x hx => h x (by simp [hx])) (processAttr s a)

/-- C10: on a method whose signature declares no return type, a
well-formed `#[into]` directive (no arguments) is silently ignored — the
rewrite result is identical to the result without the directive, and a
successful rewrite produces the plain statement-terminated call. -/
theorem claim_C10_into_ignored_without_return (m : ImplItemMethod)
    (r : List TokenTree) (pre post : List Attr) (sp : Nat)
    (hattrs : m.attrs = pre ++
      { spanId := sp, path := { leadingColon := false, segments := ["into"] },
        tokens := [] } :: post)
    (hni : ∀ a ∈ pre ++ post, a.path.isIdent "into" = false)
    (hout : m.sig.output = ReturnType.default) :
    delegate_method m r = delegate_method { m with attrs := pre ++ post } r
    ∧ (∀ a f v d sg b, delegate_method m r = MethodOutput.method a f v d sg b →
        Body.isStmt b = true) := by
  have hpreni : ∀ a ∈ pre, a.path.isIdent "into" = false :=
    fun a ha => hni a (by simp [ha])
  have hpostni : ∀ a ∈ post, a.path.isIdent "into" = false :=
    fun a ha => hni a (by simp [ha])
  have hpre : (pre.foldl processAttr
      { hasInline := false, hasInto := false, callName := none,
        kept := [], errors := [] }).hasInto = false := by
    rw [foldl_processAttr_hasInto]
    simp only [Bool.false_or]
    rw [List.any_eq_false]
    intro a ha
    simp [hpreni a ha]
  have hstep : processAttr
      (pre.foldl processAttr
        { hasInline := false, hasInto := false, callName := none,
          kept := [], errors := [] })
      { spanId := sp, path := { leadingColon := false, segments := ["into"] },
        tokens := [] } =
      { pre.foldl processAttr
          { hasInline := false, hasInto := false, callName := none,
            kept := [], errors := [] } with hasInto := true } := by
    generalize hg : pre.foldl processAttr
      { hasInline := false, hasInto := false, callName := none,
        kept := [], errors := [] } = spre at hpre ⊢
    unfold processAttr
    simp [AttrPath.isIdent, hpre]
  have hscan : attrScan m.attrs =
      { attrScan (pre ++ post) with hasInto := true } := by
    unfold attrScan
    rw [hattrs, List.foldl_append, List.foldl_cons, hstep, List.foldl_append]
    have := foldl_processAttr_hasInto_indep hpostni
      (pre.foldl processAttr
        { hasInline := false, hasInto := false, callName := none,
          kept := [], errors := [] }) true
    exact this
  have herr : methodErrors m = methodErrors { m with attrs := pre ++ post } := by
    unfold methodErrors
    rw [hscan]
  have heq : delegate_method m r = delegate_method { m with attrs := pre ++ post } r := by
    rw [delegate_method_eq, delegate_method_eq, herr]
    by_cases he : (methodErrors { m with attrs := pre ++ post }).isEmpty = true
    · rw [if_pos he, if_pos he]
      have hbody : methodBody m r = methodBody { m with attrs := pre ++ post } r := by
        unfold methodBody methodCall
        rw [hscan]
        cases hsg : m.sig.output with
        | default => rfl
        | type ty => rw [hout] at hsg; cases hsg
      rw [hbody, hscan]
    · simp only [Bool.not_eq_true] at he
      rw [if_neg (by simp [he]), if_neg (by simp [he])]
  refine ⟨heq, ?_⟩
  intro a f v d sg b h
  obtain ⟨-, -, -, -, -, -, hb⟩ := delegate_method_success h
  rw [hb]
  unfold methodBody
  rw [hout]
  rfl

/-- Witness for C10: `#[into] fn answer(&self);` rewrites exactly as
`fn answer(&self);` does. -/
theorem claim_C10_witness :
    delegate_method
        { attrs := [{ spanId := 0,
                      path := { leadingColon := false, segments := ["into"] },
                      tokens := [] }],
          vis := [], defaultness := false,
          sig := { ident := "answer", inputs := [FnArg.receiver true false],
                   output := ReturnType.default },
          block := [] }
        [TokenTree.ident "self", TokenTree.punct '.', TokenTree.lit "0"] =
      delegate_method
        { attrs := [], vis := [], defaultness := false,
          sig := { ident := "answer", inputs := [FnArg.receiver true false],
                   output := ReturnType.default },
          block := [] }
        [TokenTree.ident "self", TokenTree.punct '.', TokenTree.lit "0"] :=
  (claim_C10_into_ignored_without_return
    { attrs := [{ spanId := 0,
                  path := { leadingColon := false, segments := ["into"] },
                  tokens := [] }],
      vis := [], defaultness := false,
      sig := { ident := "answer", inputs := [FnArg.receiver true false],
               output := ReturnType.default },
      block := [] }
    [TokenTree.ident "self", TokenTree.punct '.', TokenTree.lit "0"]
    [] [] 0 rfl (by simp) rfl).1

end Claims

end DelegateAttr
